import Mathlib

/-!
Shallow embedding of the resilience layer of the ai-debate-club repository
(`src/lib/api/retry.ts`): the retry executor (`DEFAULT_RETRY_OPTIONS`,
`calculateDelay`, `withRetry`) and the `CircuitBreaker` class.

Modelling conventions:
* JS numbers used as durations/delays are rationals (`ℚ`); millisecond
  timestamps (`Date.now()`) are integers (`ℤ`); counters are `ℕ`.
* `Math.random()` is an explicit parameter `r` with `0 ≤ r < 1`.
* An asynchronous operation is a function `ℕ → Except ε α` giving the
  outcome of its n-th invocation (1-indexed); `await` is elided since the
  control flow is sequential.
* A thrown exception is an `Except.error`; the `onRetry` observer, which in
  JS returns `void` but may itself throw, is modelled as
  `ε → ℕ → Option ε` where `some ex` means the observer threw `ex`.
* `CircuitBreaker.execute` additionally reports whether the wrapped
  operation was actually invoked, and `withRetry` reports the number of
  operation invocations and the arguments of every `onRetry` call, so that
  the observable call pattern of the source is part of the model.
-/

namespace Retry

/-- Failure values as classified by the default retry predicate of the
source: a JS `Error` carrying a human-readable `message`, a non-`Error`
object exposing a numeric `status` field, or any other thrown value. -/
inductive ErrVal where
  | errMsg (message : String)
  | statusObj (status : ℤ)
  | otherVal
  deriving DecidableEq, Repr

/-- The `retryCondition` of `DEFAULT_RETRY_OPTIONS` in the source:
`Error` messages are matched for the substrings "fetch", "network" and
"timeout"; status-shaped objects are retryable when
`status >= 500 || status === 408 || status === 429`; anything else is not
retryable. -/
def defaultRetryCondition : ErrVal → Bool
  | .errMsg m =>
      m.containsSubstr "fetch" || m.containsSubstr "network" ||
        m.containsSubstr "timeout"
  | .statusObj status =>
      decide (500 ≤ status) || decide (status = 408) || decide (status = 429)
  | .otherVal => false

/-- The classification exactly as the specification words it (claim C1):
same message matching, but an HTTP-status-like field is retryable exactly
when its value lies in 500–599, or is 408 or 429; every other failure,
including any other HTTP status, is not retryable. Written from the spec
for comparison with `defaultRetryCondition`, which is written from the
source. -/
def claimedRetryCondition : ErrVal → Bool
  | .errMsg m =>
      m.containsSubstr "fetch" || m.containsSubstr "network" ||
        m.containsSubstr "timeout"
  | .statusObj status =>
      (decide (500 ≤ status) && decide (status ≤ 599)) ||
        decide (status = 408) || decide (status = 429)
  | .otherVal => false

/-- Retry configuration (`interface RetryOptions`). The optional
`retryCondition` and `onRetry` of the source are modelled as total fields:
every use below supplies them explicitly (the source fills them from
`DEFAULT_RETRY_OPTIONS` before use). -/
structure RetryOptions (ε : Type) where
  maxRetries : ℕ
  initialDelay : ℚ
  maxDelay : ℚ
  backoffFactor : ℚ
  retryCondition : ε → Bool
  onRetry : ε → ℕ → Option ε

/-- `calculateDelay` from the source: exponential backoff
`initialDelay * backoffFactor ^ (attemptNumber - 1)` capped at `maxDelay`,
plus jitter `cappedDelay * 0.1 * Math.random()`; the random draw is the
explicit parameter `r`. -/
def calculateDelay (attemptNumber : ℕ) (options : RetryOptions ε) (r : ℚ) : ℚ :=
  let exponentialDelay := options.initialDelay * options.backoffFactor ^ (attemptNumber - 1)
  let cappedDelay := min exponentialDelay options.maxDelay
  let jitter := cappedDelay * (1 / 10) * r
  cappedDelay + jitter

/-- Observable outcome of one `withRetry` call: the value returned or
failure thrown, how many times the operation was invoked, and the
`(failure, attemptNumber)` argument pairs of the `onRetry` invocations in
order. -/
structure RetryResult (ε α : Type) where
  outcome : Except ε α
  opCalls : ℕ
  retryCalls : List (ε × ℕ)

/-- The `for` loop of `withRetry`, entered at a given attempt number.
Mirrors the source line by line: try the operation; on success return; on
failure remember it, break out (throwing the last failure) when
`attempt > maxRetries`, rethrow immediately when `retryCondition` rejects
the failure, otherwise invoke `onRetry` (whose own exception, being raised
inside the `catch` block, propagates out of `withRetry`), sleep, and loop
with `attempt + 1`. The sleep and the `console.warn` have no observable
effect in the model. -/
def withRetryFrom (op : ℕ → Except ε α) (cfg : RetryOptions ε) (attempt : ℕ) :
    RetryResult ε α :=
  match op attempt with
  | .ok a => ⟨.ok a, 1, []⟩
  | .error e =>
    if h : cfg.maxRetries < attempt then ⟨.error e, 1, []⟩
    else if cfg.retryCondition e = false then ⟨.error e, 1, []⟩
    else
      match cfg.onRetry e attempt with
      | some ex => ⟨.error ex, 1, [(e, attempt)]⟩
      | none =>
        let rest := withRetryFrom op cfg (attempt + 1)
        ⟨rest.outcome, rest.opCalls + 1, (e, attempt) :: rest.retryCalls⟩
termination_by cfg.maxRetries + 1 - attempt
decreasing_by simp_wf; omega

/-- `withRetry` from the source: run the loop from attempt 1. -/
def withRetry (op : ℕ → Except ε α) (cfg : RetryOptions ε) : RetryResult ε α :=
  withRetryFrom op cfg 1

/-- The pre-jitter delay for attempt k exactly as the specification words
it: `min(initialDelay * backoffFactor ^ (k - 1), maxDelay)`. Written from
the spec for comparison with `calculateDelay`, written from the source. -/
def specPreJitterDelay (k : ℕ) (o : RetryOptions ε) : ℚ :=
  min (o.initialDelay * o.backoffFactor ^ (k - 1)) o.maxDelay

end Retry

namespace Breaker

/-- `enum CircuitState` from the source. -/
inductive CircuitState where
  | CLOSED
  | OPEN
  | HALF_OPEN
  deriving DecidableEq, Repr

/-- `interface CircuitBreakerConfig`; `monitoringPeriod` is carried but
never read by the behaviour. -/
structure CircuitBreakerConfig where
  failureThreshold : ℕ
  recoveryTimeout : ℤ
  monitoringPeriod : ℤ
  deriving DecidableEq, Repr

/-- The mutable fields of `class CircuitBreaker` together with its
immutable config. -/
structure CircuitBreaker where
  failures : ℕ
  lastFailureTime : ℤ
  state : CircuitState
  config : CircuitBreakerConfig
  deriving DecidableEq, Repr

/-- A freshly constructed breaker: `failures = 0`, `lastFailureTime = 0`,
state `CLOSED`. -/
def CircuitBreaker.init (config : CircuitBreakerConfig) : CircuitBreaker :=
  ⟨0, 0, .CLOSED, config⟩

/-- Result of `CircuitBreaker.execute`: the operation's value, the
operation's failure rethrown, or the distinguished circuit-open error
thrown without invoking the operation. -/
inductive ExecResult (ε α : Type) where
  | ok (a : α)
  | err (e : ε)
  | circuitOpenErr
  deriving DecidableEq, Repr

/-- Observable outcome of one `CircuitBreaker.execute` call: the updated
breaker, the result, and whether the wrapped operation was invoked. -/
structure ExecStep (ε α : Type) where
  breaker : CircuitBreaker
  result : ExecResult ε α
  invoked : Bool
  deriving DecidableEq, Repr

/-- `private onSuccess()`: reset `failures` to 0 and close the circuit. -/
def CircuitBreaker.onSuccess (cb : CircuitBreaker) : CircuitBreaker :=
  { cb with failures := 0, state := .CLOSED }

/-- `private onFailure()`: increment `failures`, stamp `lastFailureTime`
with the current time, and open the circuit once
`failures >= failureThreshold`. -/
def CircuitBreaker.onFailure (cb : CircuitBreaker) (now : ℤ) : CircuitBreaker :=
  let cb1 : CircuitBreaker := { cb with failures := cb.failures + 1, lastFailureTime := now }
  if cb1.config.failureThreshold ≤ cb1.failures then { cb1 with state := .OPEN }
  else cb1

/-- The `try/catch` body of `execute`: invoke the operation, then
`onSuccess` and return the value, or `onFailure` and rethrow. The
operation is always invoked on this path. -/
def CircuitBreaker.runOp (cb : CircuitBreaker) (now : ℤ) (op : Except ε α) :
    ExecStep ε α :=
  match op with
  | .ok a => ⟨cb.onSuccess, .ok a, true⟩
  | .error e => ⟨cb.onFailure now, .err e, true⟩

/-- `execute` from the source: while `OPEN`, move to `HALF_OPEN` when
`Date.now() - lastFailureTime > recoveryTimeout` (strict comparison) and
run the operation as the probe, otherwise throw the circuit-open error
without invoking the operation; in every other state run the operation. -/
def CircuitBreaker.execute (cb : CircuitBreaker) (now : ℤ) (op : Except ε α) :
    ExecStep ε α :=
  if cb.state = .OPEN then
    if cb.config.recoveryTimeout < now - cb.lastFailureTime then
      CircuitBreaker.runOp { cb with state := .HALF_OPEN } now op
    else ⟨cb, .circuitOpenErr, false⟩
  else CircuitBreaker.runOp cb now op

/-- A sequence of `execute` calls against one shared breaker, each given as
a timestamp and an operation outcome; returns the final breaker and the
per-call `(result, invoked)` trace. -/
def runCalls (cb : CircuitBreaker) :
    List (ℤ × Except ε α) → CircuitBreaker × List (ExecResult ε α × Bool)
  | [] => (cb, [])
  | (now, op) :: rest =>
      let step := cb.execute now op
      let r := runCalls step.breaker rest
      (r.1, (step.result, step.invoked) :: r.2)

end Breaker

section Claims

open Retry Breaker

/-- One-step equation: a successful attempt returns its value at once. -/
theorem withRetryFrom_ok (op : ℕ → Except ε α) (cfg : RetryOptions ε)
    (attempt : ℕ) (a : α) (h : op attempt = .ok a) :
    withRetryFrom op cfg attempt = ⟨.ok a, 1, []⟩ := by
  rw [withRetryFrom.eq_def, h]

/-- One-step equation: a failure on the last allowed attempt breaks out of
the loop and the last failure is thrown. -/
theorem withRetryFrom_last (op : ℕ → Except ε α) (cfg : RetryOptions ε)
    (attempt : ℕ) (e : ε) (h : op attempt = .error e)
    (hl : cfg.maxRetries < attempt) :
    withRetryFrom op cfg attempt = ⟨.error e, 1, []⟩ := by
  rw [withRetryFrom.eq_def, h]
  simp [hl]

/-- One-step equation: a failure rejected by the retry predicate is
rethrown at once. -/
theorem withRetryFrom_stop (op : ℕ → Except ε α) (cfg : RetryOptions ε)
    (attempt : ℕ) (e : ε) (h : op attempt = .error e)
    (hl : ¬ cfg.maxRetries < attempt) (hc : cfg.retryCondition e = false) :
    withRetryFrom op cfg attempt = ⟨.error e, 1, []⟩ := by
  rw [withRetryFrom.eq_def, h]
  simp [hl, hc]

/-- One-step equation: when the observer itself throws, its exception
escapes the loop after the single invocation of the observer. -/
theorem withRetryFrom_observer_throw (op : ℕ → Except ε α)
    (cfg : RetryOptions ε) (attempt : ℕ) (e ex : ε)
    (h : op attempt = .error e) (hl : ¬ cfg.maxRetries < attempt)
    (hc : cfg.retryCondition e = true) (ho : cfg.onRetry e attempt = some ex) :
    withRetryFrom op cfg attempt = ⟨.error ex, 1, [(e, attempt)]⟩ := by
  rw [withRetryFrom.eq_def, h]
  simp [hl, hc, ho]

/-- One-step equation: a retryable failure with budget remaining loops with
the next attempt number, accumulating the operation and observer calls. -/
theorem withRetryFrom_retry (op : ℕ → Except ε α) (cfg : RetryOptions ε)
    (attempt : ℕ) (e : ε) (h : op attempt = .error e)
    (hl : ¬ cfg.maxRetries < attempt) (hc : cfg.retryCondition e = true)
    (ho : cfg.onRetry e attempt = none) :
    withRetryFrom op cfg attempt =
      ⟨(withRetryFrom op cfg (attempt + 1)).outcome,
        (withRetryFrom op cfg (attempt + 1)).opCalls + 1,
        (e, attempt) :: (withRetryFrom op cfg (attempt + 1)).retryCalls⟩ := by
  rw [withRetryFrom.eq_def, h]
  simp [hl, hc, ho]

/-- C1 (counterexample): a failure object carrying the HTTP-status-like
field 600 lies outside 500–599/408/429, so the classification as claimed
makes it non-retryable, but the source's default predicate
(`status >= 500` with no upper bound) classifies it as retryable. -/
theorem C1_status600_counterexample :
    defaultRetryCondition (ErrVal.statusObj 600) = true ∧
      claimedRetryCondition (ErrVal.statusObj 600) = false := by
  decide

/-- C1 (amended): the default retry predicate returns true exactly when the
failure is an Error whose message contains one of the substrings "fetch",
"network" or "timeout", or carries an HTTP-status-like numeric field whose
value is ≥ 500 or equals 408 or 429; for every other failure it returns
false. -/
theorem C1_default_predicate_characterization (e : ErrVal) :
    defaultRetryCondition e = true ↔
      ((∃ m, e = ErrVal.errMsg m ∧
          (m.containsSubstr "fetch" = true ∨ m.containsSubstr "network" = true ∨
            m.containsSubstr "timeout" = true)) ∨
        (∃ s, e = ErrVal.statusObj s ∧ (500 ≤ s ∨ s = 408 ∨ s = 429))) := by
  cases e <;> simp [defaultRetryCondition] <;> tauto

/-- C2 (counterexample): with `recoveryTimeout = 1000`, an Open breaker
whose last failure was at time 0 receives a call at time exactly 1000, so
the elapsed time equals the recovery timeout; the claim says the breaker
transitions to HalfOpen and the call proceeds as the probe, but the
source's strict comparison rejects the call with the circuit-open error,
the operation is not invoked, and the state stays Open. -/
theorem C2_boundary_counterexample :
    ((⟨5, 0, .OPEN, ⟨5, 1000, 10000⟩⟩ : CircuitBreaker).execute 1000
        (Except.ok (0 : ℕ) : Except ℕ ℕ)) =
      ⟨⟨5, 0, .OPEN, ⟨5, 1000, 10000⟩⟩, .circuitOpenErr, false⟩ := by
  decide

/-- C2 (amended): for every CircuitBreaker in the Open state, a call made
when the elapsed time since lastFailureTime is strictly greater than
recoveryTimeout transitions the breaker to HalfOpen, and that same call is
allowed to proceed as the probe: execute behaves as the try/catch body run
on the HalfOpen breaker, and the operation is invoked. -/
theorem C2_open_to_halfopen_probe (cb : CircuitBreaker) (now : ℤ)
    (op : Except ε α) (hs : cb.state = .OPEN)
    (ht : cb.config.recoveryTimeout < now - cb.lastFailureTime) :
    cb.execute now op =
        CircuitBreaker.runOp { cb with state := .HALF_OPEN } now op ∧
      (cb.execute now op).invoked = true := by
  have hx : cb.execute now op =
      CircuitBreaker.runOp { cb with state := .HALF_OPEN } now op := by
    unfold CircuitBreaker.execute
    rw [if_pos hs, if_pos ht]
  refine ⟨hx, ?_⟩
  rw [hx]
  cases op <;> rfl

/-- Witness for C2: threshold 5, recoveryTimeout 1000, last failure at
time 0, call at time 1001 — the probe runs and succeeds. -/
theorem C2_open_to_halfopen_probe_witness :
    ((⟨5, 0, .OPEN, ⟨5, 1000, 10000⟩⟩ : CircuitBreaker).execute 1001
        (Except.ok (0 : ℕ) : Except ℕ ℕ)) =
        CircuitBreaker.runOp (⟨5, 0, .HALF_OPEN, ⟨5, 1000, 10000⟩⟩ :
          CircuitBreaker) 1001 (Except.ok 0) ∧
      ((⟨5, 0, .OPEN, ⟨5, 1000, 10000⟩⟩ : CircuitBreaker).execute 1001
        (Except.ok (0 : ℕ) : Except ℕ ℕ)).invoked = true :=
  C2_open_to_halfopen_probe _ _ _ rfl (by decide)

/-- C10: a call rejected on the fast-fail path (state Open and elapsed time
since lastFailureTime not greater than recoveryTimeout) returns the
circuit-open error without invoking the operation and leaves the breaker —
state, failure count and lastFailureTime — exactly as it was. -/
theorem C10_fastfail_frame (cb : CircuitBreaker) (now : ℤ) (op : Except ε α)
    (hs : cb.state = .OPEN)
    (ht : now - cb.lastFailureTime ≤ cb.config.recoveryTimeout) :
    cb.execute now op = ⟨cb, .circuitOpenErr, false⟩ := by
  unfold CircuitBreaker.execute
  rw [if_pos hs, if_neg (not_lt.mpr ht)]

/-- Witness for C10: an Open breaker with last failure at time 0 and
recoveryTimeout 1000, called at time 500. -/
theorem C10_fastfail_frame_witness :
    ((⟨5, 0, .OPEN, ⟨5, 1000, 10000⟩⟩ : CircuitBreaker).execute 500
        (Except.ok (0 : ℕ) : Except ℕ ℕ)) =
      ⟨⟨5, 0, .OPEN, ⟨5, 1000, 10000⟩⟩, .circuitOpenErr, false⟩ :=
  C10_fastfail_frame _ _ _ rfl (by decide)

/-- C7: when the operation's first failure is rejected by the retry
predicate, withRetry propagates exactly that failure, the operation is
invoked exactly once, and onRetry is never invoked — whatever the
remaining budget maxRetries. -/
theorem C7_nonretryable_propagates_immediately (op : ℕ → Except ε α)
    (cfg : RetryOptions ε) (e : ε)
    (h1 : op 1 = Except.error e) (h2 : cfg.retryCondition e = false) :
    withRetry op cfg = ⟨Except.error e, 1, []⟩ := by
  show withRetryFrom op cfg 1 = _
  by_cases hl : cfg.maxRetries < 1
  · exact withRetryFrom_last op cfg 1 e h1 hl
  · exact withRetryFrom_stop op cfg 1 e h1 hl h2

/-- Witness for C7: maxRetries 3, a predicate that rejects everything, a
first call failing with 9. -/
theorem C7_nonretryable_propagates_immediately_witness :
    (withRetry (fun _ => Except.error 9)
        (⟨3, 1, 10, 2, fun _ => false, fun _ _ => none⟩ : RetryOptions ℕ) :
      RetryResult ℕ ℕ) = ⟨Except.error 9, 1, []⟩ :=
  C7_nonretryable_propagates_immediately _ _ _ rfl rfl

/-- C3 (counterexample): with maxRetries = 2, an always-failing retryable
operation and an observer that itself throws, withRetry stops after a
single operation invocation and propagates the observer's exception,
whereas the same policy with a non-throwing observer performs all retries
(3 invocations): the observer's exception does abort the retry sequence. -/
theorem C3_throwing_observer_counterexample :
    (withRetry (fun _ => Except.error 7)
        (⟨2, 1, 10, 2, fun _ => true, fun e _ => some (e + 100)⟩ :
          RetryOptions ℕ) : RetryResult ℕ ℕ) =
        ⟨Except.error 107, 1, [(7, 1)]⟩ ∧
      (withRetry (fun _ => Except.error 7)
        (⟨2, 1, 10, 2, fun _ => true, fun _ _ => none⟩ :
          RetryOptions ℕ) : RetryResult ℕ ℕ) =
        ⟨Except.error 7, 3, [(7, 1), (7, 2)]⟩ := by
  constructor <;> simp [withRetry, withRetryFrom]

/-- C3 (amended): the observer invocation is not guarded: when the first
attempt fails retryably with budget remaining and the onRetry observer
throws, withRetry propagates the observer's exception after that single
operation invocation — the remaining retries are abandoned. -/
theorem C3_observer_exception_aborts (op : ℕ → Except ε α)
    (cfg : RetryOptions ε) (e ex : ε)
    (h1 : op 1 = Except.error e) (hb : 1 ≤ cfg.maxRetries)
    (h2 : cfg.retryCondition e = true) (h3 : cfg.onRetry e 1 = some ex) :
    withRetry op cfg = ⟨Except.error ex, 1, [(e, 1)]⟩ := by
  show withRetryFrom op cfg 1 = _
  exact withRetryFrom_observer_throw op cfg 1 e ex h1 (by omega) h2 h3

/-- Witness for C3 (amended): maxRetries 2, first failure 7, observer
throws 107. -/
theorem C3_observer_exception_aborts_witness :
    (withRetry (fun _ => Except.error 7)
        (⟨2, 1, 10, 2, fun _ => true, fun e _ => some (e + 100)⟩ :
          RetryOptions ℕ) : RetryResult ℕ ℕ) =
      ⟨Except.error 107, 1, [(7, 1)]⟩ :=
  C3_observer_exception_aborts _ _ _ _ rfl (by decide) rfl rfl

/-- Helper for C4: from any attempt number onwards, if every invocation of
the operation fails, every failure is retryable and the observer never
throws, the loop runs to the last allowed attempt: with k attempts left
after the current one, the operation is invoked k+1 more times, the
observer is invoked at the attempt numbers attempt, attempt+1, ...,
attempt+k-1 in order, and the failure of the last attempt is thrown. -/
theorem withRetryFrom_always_fail {ε α : Type} (cfg : RetryOptions ε)
    (errs : ℕ → ε) (hcond : ∀ j, cfg.retryCondition (errs j) = true)
    (hobs : ∀ j k, cfg.onRetry (errs j) k = none) :
    ∀ (k attempt : ℕ), attempt + k = cfg.maxRetries + 1 →
      withRetryFrom (fun j => (Except.error (errs j) : Except ε α)) cfg attempt =
        ⟨Except.error (errs (cfg.maxRetries + 1)), k + 1,
          (List.range' attempt k).map (fun j => (errs j, j))⟩ := by
  intro k
  induction k with
  | zero =>
    intro attempt hsum
    have ha : attempt = cfg.maxRetries + 1 := by omega
    rw [withRetryFrom_last (fun j => (Except.error (errs j) : Except ε α)) cfg
      attempt (errs attempt) rfl (by omega)]
    simp [ha]
  | succ k ih =>
    intro attempt hsum
    rw [withRetryFrom_retry (fun j => (Except.error (errs j) : Except ε α)) cfg
      attempt (errs attempt) rfl (by omega) (hcond attempt) (hobs attempt attempt),
      ih (attempt + 1) (by omega)]
    simp [List.range']

/-- C4: with maxRetries = N and an operation whose every invocation fails
with a failure the predicate classifies as retryable (and a non-throwing
observer), withRetry invokes the operation exactly N+1 times, invokes
onRetry exactly N times with attempt numbers 1..N in increasing order
(the list range' 1 N), and propagates the failure of the last (N+1-th)
attempt. -/
theorem C4_retry_budget_exact {ε α : Type} (cfg : RetryOptions ε)
    (errs : ℕ → ε) (hcond : ∀ j, cfg.retryCondition (errs j) = true)
    (hobs : ∀ j k, cfg.onRetry (errs j) k = none) :
    withRetry (fun j => (Except.error (errs j) : Except ε α)) cfg =
      ⟨Except.error (errs (cfg.maxRetries + 1)), cfg.maxRetries + 1,
        (List.range' 1 cfg.maxRetries).map (fun j => (errs j, j))⟩ :=
  withRetryFrom_always_fail cfg errs hcond hobs cfg.maxRetries 1 (by omega)

/-- Witness for C4: maxRetries = 2, failures numbered by attempt: three
operation invocations, onRetry at attempts 1 and 2, final failure 3. -/
theorem C4_retry_budget_exact_witness :
    (withRetry (fun j => (Except.error j : Except ℕ ℕ))
        (⟨2, 1, 10, 2, fun _ => true, fun _ _ => none⟩ : RetryOptions ℕ)) =
      ⟨Except.error 3, 3, [(1, 1), (2, 2)]⟩ := by
  have h := C4_retry_budget_exact
    (⟨2, 1, 10, 2, fun _ => true, fun _ _ => none⟩ : RetryOptions ℕ)
    (fun j => j) (fun _ => rfl) (fun _ _ => rfl) (α := ℕ)
  exact h.trans rfl

/-- One-step equation: in a non-Open state a successful operation runs and
onSuccess closes the circuit. -/
theorem execute_ok_of_ne_open (cb : CircuitBreaker) (now : ℤ) (a : α)
    (hs : ¬ cb.state = .OPEN) :
    cb.execute now (Except.ok a : Except ε α) = ⟨cb.onSuccess, .ok a, true⟩ := by
  unfold CircuitBreaker.execute
  rw [if_neg hs]
  rfl

/-- One-step equation: in a non-Open state a failing operation runs and
onFailure counts the failure. -/
theorem execute_fail_of_ne_open (cb : CircuitBreaker) (now : ℤ) (e : ε)
    (hs : ¬ cb.state = .OPEN) :
    cb.execute now (Except.error e : Except ε α) =
      ⟨cb.onFailure now, .err e, true⟩ := by
  unfold CircuitBreaker.execute
  rw [if_neg hs]
  rfl

/-- One-step equation: an Open breaker whose recovery timeout has been
strictly exceeded turns HalfOpen and runs the operation as the probe. -/
theorem execute_open_probe (cb : CircuitBreaker) (now : ℤ) (op : Except ε α)
    (hs : cb.state = .OPEN)
    (ht : cb.config.recoveryTimeout < now - cb.lastFailureTime) :
    cb.execute now op =
      CircuitBreaker.runOp { cb with state := .HALF_OPEN } now op := by
  unfold CircuitBreaker.execute
  rw [if_pos hs, if_pos ht]

/-- One-step equation: an Open breaker whose recovery timeout has not been
strictly exceeded rejects the call unchanged. Shared by the proofs about
the fast-fail path. -/
theorem execute_open_reject (cb : CircuitBreaker) (now : ℤ) (op : Except ε α)
    (hs : cb.state = .OPEN)
    (ht : now - cb.lastFailureTime ≤ cb.config.recoveryTimeout) :
    cb.execute now op = ⟨cb, .circuitOpenErr, false⟩ := by
  unfold CircuitBreaker.execute
  rw [if_pos hs, if_neg (not_lt.mpr ht)]

/-- onFailure below the threshold: count and stamp, state unchanged. -/
theorem onFailure_of_lt (cb : CircuitBreaker) (now : ℤ)
    (h : cb.failures + 1 < cb.config.failureThreshold) :
    cb.onFailure now =
      { cb with failures := cb.failures + 1, lastFailureTime := now } := by
  simp only [CircuitBreaker.onFailure]
  split
  · omega
  · rfl

/-- onFailure reaching the threshold: count, stamp and open the circuit. -/
theorem onFailure_of_ge (cb : CircuitBreaker) (now : ℤ)
    (h : cb.config.failureThreshold ≤ cb.failures + 1) :
    cb.onFailure now =
      { cb with failures := cb.failures + 1, lastFailureTime := now,
                state := .OPEN } := by
  simp only [CircuitBreaker.onFailure]
  split
  · rfl
  · omega

/-- Helper for C5: a run of consecutive failing calls from a Closed
breaker whose length exactly exhausts the failure threshold invokes the
operation on every call and leaves the breaker Open with its config
unchanged. -/
theorem runCalls_fail_opens {ε α : Type} (calls : List (ℤ × ε)) :
    ∀ cb : CircuitBreaker, cb.state = .CLOSED →
      cb.failures + calls.length = cb.config.failureThreshold →
      calls ≠ [] →
      (∀ r ∈ (runCalls cb
          (calls.map (fun p => (p.1, (Except.error p.2 : Except ε α))))).2,
        r.2 = true) ∧
      (runCalls cb
        (calls.map (fun p => (p.1, (Except.error p.2 : Except ε α))))).1.state =
          .OPEN ∧
      (runCalls cb
        (calls.map (fun p => (p.1, (Except.error p.2 : Except ε α))))).1.config =
          cb.config := by
  induction calls with
  | nil => intro cb _ _ hne; exact absurd rfl hne
  | cons p rest ih =>
    intro cb hs hsum _
    obtain ⟨t, e⟩ := p
    have hno : ¬ cb.state = .OPEN := by rw [hs]; exact fun hh => nomatch hh
    by_cases hrest : rest = []
    · subst hrest
      have hge : cb.config.failureThreshold ≤ cb.failures + 1 := by
        simp only [List.length_cons, List.length_nil] at hsum; omega
      have hstep : cb.execute t (Except.error e : Except ε α) =
          ⟨{ cb with failures := cb.failures + 1, lastFailureTime := t,
                     state := .OPEN }, .err e, true⟩ := by
        rw [execute_fail_of_ne_open cb t e hno, onFailure_of_ge cb t hge]
      have hrun : runCalls cb
          (([(t, e)] : List (ℤ × ε)).map
            (fun p => (p.1, (Except.error p.2 : Except ε α)))) =
          ({ cb with failures := cb.failures + 1, lastFailureTime := t,
                     state := .OPEN }, [(.err e, true)]) := by
        simp only [List.map, runCalls, hstep]
      rw [hrun]
      refine ⟨?_, rfl, rfl⟩
      intro r hr
      simp only [List.mem_singleton] at hr
      rw [hr]
    · have hlt : cb.failures + 1 < cb.config.failureThreshold := by
        have : rest.length ≠ 0 := fun hz => hrest (List.eq_nil_of_length_eq_zero hz)
        simp only [List.length_cons] at hsum; omega
      have step : cb.execute t (Except.error e : Except ε α) =
          ⟨{ cb with failures := cb.failures + 1, lastFailureTime := t },
            .err e, true⟩ := by
        rw [execute_fail_of_ne_open cb t e hno, onFailure_of_lt cb t hlt]
      have hrec := ih { cb with failures := cb.failures + 1, lastFailureTime := t }
        hs (by simp only [List.length_cons] at hsum; simp; omega) hrest
      simp only [List.map, runCalls, step]
      refine ⟨?_, hrec.2.1, hrec.2.2⟩
      intro r hr
      simp only [List.mem_cons] at hr
      rcases hr with hr | hr
      · rw [hr]
      · exact hrec.1 r hr

/-- C5: a breaker with failureThreshold = T ≥ 1 starting Closed with zero
failures: T consecutive failing calls all invoke the operation (in
particular the T-th still does) and leave the breaker Open; afterwards
every call made before the recovery timeout has elapsed since the
breaker's lastFailureTime is rejected with the circuit-open error without
invoking the operation and without changing the breaker. -/
theorem C5_breaker_opens_at_threshold {ε α : Type} (cfg : CircuitBreakerConfig)
    (calls : List (ℤ × ε)) (hT : 1 ≤ cfg.failureThreshold)
    (hlen : calls.length = cfg.failureThreshold) :
    (∀ r ∈ (runCalls (CircuitBreaker.init cfg)
        (calls.map (fun p => (p.1, (Except.error p.2 : Except ε α))))).2,
      r.2 = true) ∧
    (runCalls (CircuitBreaker.init cfg)
      (calls.map (fun p => (p.1, (Except.error p.2 : Except ε α))))).1.state =
        .OPEN ∧
    (∀ (now : ℤ) (op : Except ε α),
      now - (runCalls (CircuitBreaker.init cfg)
          (calls.map (fun p => (p.1, (Except.error p.2 : Except ε α))))).1.lastFailureTime <
        cfg.recoveryTimeout →
      (runCalls (CircuitBreaker.init cfg)
          (calls.map (fun p => (p.1, (Except.error p.2 : Except ε α))))).1.execute now op =
        ⟨(runCalls (CircuitBreaker.init cfg)
            (calls.map (fun p => (p.1, (Except.error p.2 : Except ε α))))).1,
          .circuitOpenErr, false⟩) := by
  have hne : calls ≠ [] := by
    intro hc
    rw [hc] at hlen
    simp at hlen
    omega
  have h := runCalls_fail_opens (α := α) calls (CircuitBreaker.init cfg) rfl
    (by simpa [CircuitBreaker.init] using hlen) hne
  refine ⟨h.1, h.2.1, ?_⟩
  intro now op hnow
  refine execute_open_reject _ now op h.2.1 ?_
  rw [h.2.2]
  exact le_of_lt hnow

/-- Witness for C5: threshold 3, recoveryTimeout 1000, failing calls at
times 0, 1, 2, then a call at time 500 rejected unchanged. -/
theorem C5_breaker_opens_at_threshold_witness :
    (∀ r ∈ (runCalls (CircuitBreaker.init ⟨3, 1000, 10000⟩)
        (([((0 : ℤ), (7 : ℕ)), (1, 7), (2, 7)]).map
          (fun p => (p.1, (Except.error p.2 : Except ℕ ℕ))))).2, r.2 = true) ∧
    (runCalls (CircuitBreaker.init ⟨3, 1000, 10000⟩)
      (([((0 : ℤ), (7 : ℕ)), (1, 7), (2, 7)]).map
        (fun p => (p.1, (Except.error p.2 : Except ℕ ℕ))))).1.state = .OPEN ∧
    (runCalls (CircuitBreaker.init ⟨3, 1000, 10000⟩)
        (([((0 : ℤ), (7 : ℕ)), (1, 7), (2, 7)]).map
          (fun p => (p.1, (Except.error p.2 : Except ℕ ℕ))))).1.execute 500
        (Except.ok 0 : Except ℕ ℕ) =
      ⟨(runCalls (CircuitBreaker.init ⟨3, 1000, 10000⟩)
          (([((0 : ℤ), (7 : ℕ)), (1, 7), (2, 7)]).map
            (fun p => (p.1, (Except.error p.2 : Except ℕ ℕ))))).1,
        .circuitOpenErr, false⟩ := by
  have h := C5_breaker_opens_at_threshold (α := ℕ) ⟨3, 1000, 10000⟩
    [((0 : ℤ), (7 : ℕ)), (1, 7), (2, 7)] (by decide) rfl
  exact ⟨h.1, h.2.1, h.2.2 500 (Except.ok 0) (by decide)⟩

/-- Invariant justifying the hypothesis of C6: in every breaker obtained
from a fresh one by execute calls, a non-Closed state implies the failure
count has reached the threshold; one step of execute preserves this and
never changes the config. -/
theorem execute_preserves_threshold_reached (cb : CircuitBreaker) (now : ℤ)
    (op : Except ε α)
    (h : cb.state ≠ .CLOSED → cb.config.failureThreshold ≤ cb.failures) :
    ((cb.execute now op).breaker.state ≠ .CLOSED →
      (cb.execute now op).breaker.config.failureThreshold ≤
        (cb.execute now op).breaker.failures) ∧
    (cb.execute now op).breaker.config = cb.config := by
  by_cases h1 : cb.state = .OPEN
  · by_cases h2 : cb.config.recoveryTimeout < now - cb.lastFailureTime
    · rw [execute_open_probe cb now op h1 h2]
      rcases op with e | a
      · have hge : cb.config.failureThreshold ≤ cb.failures + 1 :=
          Nat.le_succ_of_le (h (by rw [h1]; exact fun hh => nomatch hh))
        have hb : ({ cb with state := CircuitState.HALF_OPEN } :
            CircuitBreaker).onFailure now =
            { cb with failures := cb.failures + 1, lastFailureTime := now,
                      state := .OPEN } :=
          onFailure_of_ge { cb with state := CircuitState.HALF_OPEN } now hge
        show ((({ cb with state := CircuitState.HALF_OPEN } :
              CircuitBreaker).onFailure now).state ≠ .CLOSED →
            (({ cb with state := CircuitState.HALF_OPEN } :
              CircuitBreaker).onFailure now).config.failureThreshold ≤
              (({ cb with state := CircuitState.HALF_OPEN } :
                CircuitBreaker).onFailure now).failures) ∧
          (({ cb with state := CircuitState.HALF_OPEN } :
            CircuitBreaker).onFailure now).config = cb.config
        rw [hb]
        exact ⟨fun _ => hge, rfl⟩
      · exact ⟨fun hc => absurd rfl hc, rfl⟩
    · rw [execute_open_reject cb now op h1 (by omega)]
      exact ⟨h, rfl⟩
  · rcases op with e | a
    · rw [execute_fail_of_ne_open cb now e h1]
      by_cases h3 : cb.config.failureThreshold ≤ cb.failures + 1
      · rw [onFailure_of_ge cb now h3]
        exact ⟨fun _ => h3, rfl⟩
      · rw [onFailure_of_lt cb now (by omega)]
        refine ⟨fun hc => ?_, rfl⟩
        have := h hc
        omega
    · rw [execute_ok_of_ne_open cb now a h1]
      exact ⟨fun hc => absurd rfl hc, rfl⟩

/-- C6: probe behaviour in the HalfOpen state (the hypothesis that the
failure count has reached the threshold holds in every reachable HalfOpen
state, by `execute_preserves_threshold_reached`): the probe call is
allowed through; if it succeeds the breaker transitions to Closed with the
failure count reset to 0, and if it fails the breaker transitions back to
Open with lastFailureTime set to the time of that failure. -/
theorem C6_halfopen_probe (cb : CircuitBreaker) (now : ℤ)
    (hs : cb.state = .HALF_OPEN)
    (hf : cb.config.failureThreshold ≤ cb.failures) :
    (∀ op : Except ε α, (cb.execute now op).invoked = true) ∧
    (∀ a : α, cb.execute now (Except.ok a : Except ε α) =
      ⟨{ cb with failures := 0, state := .CLOSED }, .ok a, true⟩) ∧
    (∀ e : ε, cb.execute now (Except.error e : Except ε α) =
      ⟨{ cb with failures := cb.failures + 1, lastFailureTime := now,
                 state := .OPEN }, .err e, true⟩) := by
  have hno : ¬ cb.state = .OPEN := by rw [hs]; exact fun hh => nomatch hh
  have hge : cb.config.failureThreshold ≤ cb.failures + 1 := Nat.le_succ_of_le hf
  refine ⟨?_, ?_, ?_⟩
  · intro op
    rcases op with e | a
    · rw [execute_fail_of_ne_open cb now e hno]
    · rw [execute_ok_of_ne_open cb now a hno]
  · intro a
    rw [execute_ok_of_ne_open cb now a hno]
    rfl
  · intro e
    rw [execute_fail_of_ne_open cb now e hno, onFailure_of_ge cb now hge]

/-- Witness for C6: a HalfOpen breaker with threshold 3 and 3 recorded
failures, probed at time 2000 with a success and with a failure. -/
theorem C6_halfopen_probe_witness :
    ((⟨3, 0, .HALF_OPEN, ⟨3, 1000, 10000⟩⟩ : CircuitBreaker).execute 2000
        (Except.ok (5 : ℕ) : Except ℕ ℕ)) =
      ⟨⟨0, 0, .CLOSED, ⟨3, 1000, 10000⟩⟩, .ok 5, true⟩ ∧
    ((⟨3, 0, .HALF_OPEN, ⟨3, 1000, 10000⟩⟩ : CircuitBreaker).execute 2000
        (Except.error (7 : ℕ) : Except ℕ ℕ)) =
      ⟨⟨4, 2000, .OPEN, ⟨3, 1000, 10000⟩⟩, .err 7, true⟩ := by
  have h := C6_halfopen_probe (ε := ℕ) (α := ℕ)
    (⟨3, 0, .HALF_OPEN, ⟨3, 1000, 10000⟩⟩ : CircuitBreaker) 2000 rfl (by decide)
  exact ⟨h.2.1 5, h.2.2 7⟩

/-- C9: with threshold 3, the call sequence failure, failure, success,
failure, failure — at arbitrary call times and with arbitrary failure
values — leaves the breaker Closed after every one of the five calls:
the intervening success resets the consecutive-failure count to 0, so the
breaker never transitions to Open. -/
theorem C9_success_resets_count {ε α : Type} (t1 t2 t3 t4 t5 : ℤ)
    (e1 e2 e4 e5 : ε) (a : α) (rt mp : ℤ) :
    (runCalls (CircuitBreaker.init ⟨3, rt, mp⟩)
      ([(t1, Except.error e1)] : List (ℤ × Except ε α))).1.state = .CLOSED ∧
    (runCalls (CircuitBreaker.init ⟨3, rt, mp⟩)
      ([(t1, Except.error e1), (t2, Except.error e2)] :
        List (ℤ × Except ε α))).1.state = .CLOSED ∧
    (runCalls (CircuitBreaker.init ⟨3, rt, mp⟩)
      ([(t1, Except.error e1), (t2, Except.error e2), (t3, Except.ok a)] :
        List (ℤ × Except ε α))).1.state = .CLOSED ∧
    (runCalls (CircuitBreaker.init ⟨3, rt, mp⟩)
      ([(t1, Except.error e1), (t2, Except.error e2), (t3, Except.ok a),
        (t4, Except.error e4)] : List (ℤ × Except ε α))).1.state = .CLOSED ∧
    (runCalls (CircuitBreaker.init ⟨3, rt, mp⟩)
      ([(t1, Except.error e1), (t2, Except.error e2), (t3, Except.ok a),
        (t4, Except.error e4), (t5, Except.error e5)] :
        List (ℤ × Except ε α))).1.state = .CLOSED :=
  ⟨rfl, rfl, rfl, rfl, rfl⟩

/-- C8: for every attempt k ≥ 1 and every random draw r ∈ [0,1), the
delay computed by the source decomposes as the pre-jitter delay
min(initialDelay * backoffFactor^(k-1), maxDelay) — as the spec words it —
plus a jitter that is at least 0 and at most 0.1 times the pre-jitter
value; and for backoffFactor > 1, while the cap is not reached at the next
attempt, the pre-jitter delay strictly increases from attempt k to k+1. -/
theorem C8_backoff_formula {ε : Type} (o : RetryOptions ε) (k : ℕ) (r : ℚ)
    (hk : 1 ≤ k) (hd : 0 < o.initialDelay) (hm : 0 ≤ o.maxDelay)
    (hb : 1 ≤ o.backoffFactor) (hr0 : 0 ≤ r) (hr1 : r < 1) :
    (calculateDelay k o r =
        specPreJitterDelay k o + specPreJitterDelay k o * (1 / 10) * r ∧
      0 ≤ specPreJitterDelay k o * (1 / 10) * r ∧
      specPreJitterDelay k o * (1 / 10) * r ≤ (1 / 10) * specPreJitterDelay k o) ∧
    (1 < o.backoffFactor → o.initialDelay * o.backoffFactor ^ k ≤ o.maxDelay →
      specPreJitterDelay k o < specPreJitterDelay (k + 1) o) := by
  have hD0 : 0 ≤ specPreJitterDelay k o :=
    le_min (mul_nonneg hd.le (pow_nonneg (by linarith) _)) hm
  refine ⟨⟨rfl, ?_, ?_⟩, ?_⟩
  · exact mul_nonneg (mul_nonneg hD0 (by norm_num)) hr0
  · nlinarith [mul_nonneg hD0 hr0]
  · intro h1 h2
    have hpow : o.backoffFactor ^ (k - 1) < o.backoffFactor ^ k :=
      pow_lt_pow_right₀ h1 (by omega)
    have hstrict : o.initialDelay * o.backoffFactor ^ (k - 1) <
        o.initialDelay * o.backoffFactor ^ k :=
      mul_lt_mul_of_pos_left hpow hd
    unfold specPreJitterDelay
    rw [min_eq_left (le_trans hstrict.le h2), Nat.add_sub_cancel,
      min_eq_left h2]
    exact hstrict

/-- Witness for C8: initialDelay 1, maxDelay 10, backoffFactor 2, attempt
k = 2, random draw 1/2. -/
theorem C8_backoff_formula_witness :
    (calculateDelay 2 (⟨3, 1, 10, 2, fun _ => true, fun _ _ => none⟩ :
          RetryOptions ℕ) (1 / 2) =
        specPreJitterDelay 2 (⟨3, 1, 10, 2, fun _ => true, fun _ _ => none⟩ :
          RetryOptions ℕ) +
          specPreJitterDelay 2 (⟨3, 1, 10, 2, fun _ => true, fun _ _ => none⟩ :
            RetryOptions ℕ) * (1 / 10) * (1 / 2) ∧
      0 ≤ specPreJitterDelay 2 (⟨3, 1, 10, 2, fun _ => true, fun _ _ => none⟩ :
          RetryOptions ℕ) * (1 / 10) * (1 / 2) ∧
      specPreJitterDelay 2 (⟨3, 1, 10, 2, fun _ => true, fun _ _ => none⟩ :
          RetryOptions ℕ) * (1 / 10) * (1 / 2) ≤
        (1 / 10) * specPreJitterDelay 2
          (⟨3, 1, 10, 2, fun _ => true, fun _ _ => none⟩ : RetryOptions ℕ)) ∧
    specPreJitterDelay 2 (⟨3, 1, 10, 2, fun _ => true, fun _ _ => none⟩ :
        RetryOptions ℕ) <
      specPreJitterDelay 3 (⟨3, 1, 10, 2, fun _ => true, fun _ _ => none⟩ :
        RetryOptions ℕ) := by
  have h := C8_backoff_formula
    (⟨3, 1, 10, 2, fun _ => true, fun _ _ => none⟩ : RetryOptions ℕ) 2 (1 / 2)
    (by norm_num) (by norm_num) (by norm_num) (by norm_num) (by norm_num)
    (by norm_num)
  exact ⟨h.1, h.2 (by norm_num) (by norm_num)⟩

end Claims
